import Mathlib

/-
Verification development for the MD-TO-PDF batch converter
(src/MD-TO-PDF.py, class MarkdownToPdfConverter).

Shallow embedding notes:
* Windows paths are modelled structurally, as pathlib does: a `FPath` is a
  parent directory plus a final name component (`Path.name`); `Path.stem`
  becomes `stemOf` applied to the name.
* The filesystem is a state value: a list of existing directories plus an
  association list from paths to file contents (a written file replaces any
  previous entry at the same path, as open(.., 'w') does).
* External effects that can fail or behave arbitrarily are oracles in `Env`:
  reading an input file (open/read, which may raise, e.g. decode errors),
  the markdown library call, writing the temporary HTML file, and the
  pdfkit/wkhtmltopdf pagination call.  Pagination may raise (`Except.error`),
  return after creating the output file with given bytes (`ok (some c)`), or
  return without creating the output file (`ok none`) - the three situations
  distinguished by the source's post-call verification.
* Python exceptions are `Except.error` values carrying `str(e)`; the
  try/except/finally of `convert_file` is modelled by `convert_file_try`
  (the try block) plus the handler and the unconditional cleanup.
* `print` output and logger output are accumulated as lists of strings /
  log entries in the results.
-/

namespace MdToPdf

/-- A filesystem path, split as pathlib splits it: parent directory and final
name component. -/
structure FPath where
  dir : String
  name : String
deriving DecidableEq, Repr

/-- Rendered form of a path (used in log/print messages). -/
def FPath.render (p : FPath) : String := p.dir ++ "\\" ++ p.name

/-- self.input_dir = Path(r"E:\md") -/
def input_dir : String := "E:\\md"

/-- self.output_dir = Path(r"E:\pdf") -/
def output_dir : String := "E:\\pdf"

/-- self.temp_dir = Path('temp_html') -/
def temp_dir : String := "temp_html"

/-- self.wkhtmltopdf_path -/
def wkhtmltopdf_path : String := "C:\\Program Files\\wkhtmltopdf\\bin\\wkhtmltopdf.exe"

/-- Index of the last '.' in a character list, if any. -/
def lastDotIdx (cs : List Char) : Option Nat :=
  match cs.reverse.findIdx? (fun c => decide (c = '.')) with
  | none => none
  | some j => some (cs.length - 1 - j)

/-- pathlib's `PurePath.stem`: the final name without its last suffix.  A
suffix exists only when the last dot is neither the first nor the last
character of the name. -/
def stemOf (name : String) : String :=
  let cs := name.data
  match lastDotIdx cs with
  | none => name
  | some i => if 0 < i ∧ i < cs.length - 1 then String.mk (cs.take i) else name

/-- `sfx.data.isSuffixOf s.data`: does the string `s` end with `sfx`?  Used to
model the `'*.md'` glob filter on names in the input directory. -/
def strEndsWith (s sfx : String) : Bool := sfx.data.isSuffixOf s.data

/-- Does `pat` occur as a contiguous segment of `l`? -/
def segIn (pat : List Char) : List Char → Bool
  | [] => pat.isEmpty
  | c :: t => pat.isPrefixOf (c :: t) || segIn pat t

/-- Does `s` contain `pat` as a substring? (used only to state log-content
facts at concrete inputs). -/
def strContains (s pat : String) : Bool := segIn pat.data s.data

/-- Filesystem state: the set of existing directories and the files, as an
association list from path to contents (file size = content length). -/
structure FS where
  dirs : List String
  files : List (FPath × String)
deriving DecidableEq, Repr

/-- Path.exists() for a directory. -/
def FS.dirExists (fs : FS) (d : String) : Bool :=
  fs.dirs.any (fun x => decide (x = d))

/-- Path.mkdir(parents=True, exist_ok=True). -/
def FS.mkdirp (fs : FS) (d : String) : FS :=
  if fs.dirExists d then fs else { fs with dirs := d :: fs.dirs }

/-- Contents of the file at `p`, if it exists. -/
def FS.lookupFile (fs : FS) (p : FPath) : Option String :=
  (fs.files.find? (fun e => decide (e.1 = p))).map (fun e => e.2)

/-- Path.exists() for a file. -/
def FS.fileExists (fs : FS) (p : FPath) : Bool :=
  fs.files.any (fun e => decide (e.1 = p))

/-- Path.stat().st_size, with 0 for a missing file (the source only consults
the size of a file it has just checked to exist). -/
def FS.fileSize (fs : FS) (p : FPath) : Nat :=
  match fs.lookupFile p with
  | some c => c.length
  | none => 0

/-- open(p, 'w') followed by a full write: creates or replaces the file. -/
def FS.writeFile (fs : FS) (p : FPath) (c : String) : FS :=
  { fs with files := (p, c) :: fs.files.filter (fun e => decide (¬ e.1 = p)) }

/-- Path.unlink(): removes the file at `p`. -/
def FS.unlink (fs : FS) (p : FPath) : FS :=
  { fs with files := fs.files.filter (fun e => decide (¬ e.1 = p)) }

/-- shutil.rmtree(self.temp_dir): removes the temporary directory and every
file inside it. -/
def FS.rmtreeTemp (fs : FS) : FS :=
  { dirs := fs.dirs.filter (fun d => decide (¬ d = temp_dir)),
    files := fs.files.filter (fun e => decide (¬ e.1.dir = temp_dir)) }

/-- The files of `fs` have pairwise distinct paths (a real directory tree
never holds two files at the same path). -/
def FS.keysNodup (fs : FS) : Prop := (fs.files.map (fun e => e.1)).Nodup

/-- Selector for the '*.md' glob over the input directory: keeps a filesystem
entry's path when it lies in the input directory and its name ends in .md. -/
def mdSel (e : FPath × String) : Option FPath :=
  if e.1.dir = input_dir ∧ strEndsWith e.1.name ".md" then some e.1 else none

/-- list(self.input_dir.glob('*.md')): the paths of the files that sit in the
input directory and match '*.md'. -/
def globMd (fs : FS) : List FPath :=
  fs.files.filterMap mdSel

/-- A line emitted through self.logger. -/
inductive LogEntry where
  | info (msg : String)
  | error (msg : String)
deriving DecidableEq, Repr

/-- The error-level messages of a log. -/
def errorMsgs (log : List LogEntry) : List String :=
  log.filterMap (fun e =>
    match e with
    | LogEntry.error m => some m
    | LogEntry.info _ => none)

/-- Oracles for the external effects of one run.  Each oracle is a fixed
function, so a single `Env` describes a deterministic external world. -/
structure Env where
  /-- open(md_file, encoding='utf-8').read(): the text of the input file, or
  the raised exception's text. -/
  readFile : FPath → Except String String
  /-- markdown.markdown(content, extensions=..., output_format='html5'):
  the rendered HTML body, or the raised exception's text.  The first argument
  is the extension list the call is configured with. -/
  renderMd : List String → String → Except String String
  /-- Writing the temporary HTML file: `none` on success, `some e` when the
  write raises after open() has already created/truncated the file. -/
  writeTemp : FPath → String → Option String
  /-- pdfkit.from_file on the given HTML content: `Except.error e` when the
  call raises, `ok (some c)` when it returns having produced output bytes
  `c`, `ok none` when it returns without creating the output file. -/
  paginate : String → Except String (Option String)

/-- The fixed extension list of convert_md_to_html. -/
def extensions : List String :=
  ["markdown.extensions.tables",
   "markdown.extensions.fenced_code",
   "markdown.extensions.codehilite",
   "markdown.extensions.toc",
   "markdown.extensions.meta",
   "markdown.extensions.nl2br"]

/-- Constant text of the HTML template before the injected body
(the f-string of convert_md_to_html up to {html_content}). -/
def templatePre : String :=
  "\n            <!DOCTYPE html>\n            <html>\n            <head>\n                <meta charset=\"utf-8\">\n                <style>\n                    body \x7b\n                        font-family: \"Microsoft YaHei\", Arial, sans-serif;\n                        line-height: 1.6;\n                        padding: 20px;\n                        max-width: 21cm;\n                        margin: 0 auto;\n                    \x7d\n                    img \x7b\n                        max-width: 100%;\n                        height: auto;\n                    \x7d\n                    pre \x7b\n                        background-color: #f5f5f5;\n                        padding: 10px;\n                        border-radius: 5px;\n                        overflow-x: auto;\n                    \x7d\n                    code \x7b\n                        font-family: Consolas, Monaco, \x27Courier New\x27, monospace;\n                    \x7d\n                    table \x7b\n                        border-collapse: collapse;\n                        width: 100%;\n                        margin: 15px 0;\n                    \x7d\n                    th, td \x7b\n                        border: 1px solid #ddd;\n                        padding: 8px;\n                        text-align: left;\n                    \x7d\n                    th \x7b\n                        background-color: #f5f5f5;\n                    \x7d\n                </style>\n            </head>\n            <body>\n                "

/-- Constant text of the HTML template after the injected body. -/
def templatePost : String :=
  "\n            </body>\n            </html>\n            "

/-- The f-string html_template of convert_md_to_html: fixed text around the
rendered body. -/
def html_template (html_content : String) : String :=
  templatePre ++ html_content ++ templatePost

/-- MarkdownToPdfConverter.convert_md_to_html: read the file, render it with
the fixed extension list, and wrap the result in the fixed template.  The
`except` clause logs and re-raises, so the result is the produced HTML or the
propagated exception, together with the log lines emitted. -/
def convert_md_to_html (env : Env) (md_file : FPath) :
    Except String String × List LogEntry :=
  match env.readFile md_file with
  | Except.error e =>
      (Except.error e, [LogEntry.error ("转换" ++ md_file.render ++ "时出错: " ++ e)])
  | Except.ok md_content =>
    match env.renderMd extensions md_content with
    | Except.error e =>
        (Except.error e, [LogEntry.error ("转换" ++ md_file.render ++ "时出错: " ++ e)])
    | Except.ok html_content => (Except.ok (html_template html_content), [])

/-- The output path `self.output_dir / f"{md_file.stem}.pdf"`. -/
def pdfPathOf (md_file : FPath) : FPath :=
  ⟨output_dir, stemOf md_file.name ++ ".pdf"⟩

/-- The temporary path `self.temp_dir / f"{md_file.stem}.html"`. -/
def tempPathOf (md_file : FPath) : FPath :=
  ⟨temp_dir, stemOf md_file.name ++ ".html"⟩

/-- The try block of convert_file (lines 136-164): returns the outcome
(`ok ()` for the `return True` path, `error e` for a raised exception), the
filesystem as left by the block, and the log lines emitted inside it. -/
def convert_file_try (env : Env) (fs : FS) (md_file : FPath) :
    Except String Unit × FS × List LogEntry :=
  let pdf_file := pdfPathOf md_file
  let temp_html_file := tempPathOf md_file
  let log0 := [LogEntry.info ("正在转换: " ++ md_file.name)]
  match convert_md_to_html env md_file with
  | (Except.error e, lg) => (Except.error e, fs, log0 ++ lg)
  | (Except.ok html_content, lg) =>
    match env.writeTemp temp_html_file html_content with
    | some e =>
        (Except.error e, fs.writeFile temp_html_file "", log0 ++ lg)
    | none =>
      let fs1 := fs.writeFile temp_html_file html_content
      match env.paginate html_content with
      | Except.error e => (Except.error e, fs1, log0 ++ lg)
      | Except.ok res =>
        let fs2 := match res with
          | some c => fs1.writeFile pdf_file c
          | none => fs1
        let lg2 := log0 ++ lg ++ [LogEntry.info ("转换完成: " ++ pdf_file.render)]
        if fs2.fileExists pdf_file = false ∨ fs2.fileSize pdf_file = 0 then
          (Except.error "PDF文件生成失败或为空", fs2, lg2)
        else
          (Except.ok (), fs2, lg2)

/-- Did a try-block outcome reach the `return True` statement? -/
def isOkE (r : Except String Unit) : Bool :=
  match r with
  | Except.ok _ => true
  | Except.error _ => false

/-- Result of convert_file: the returned boolean, the filesystem, the log. -/
structure FileResult where
  ok : Bool
  fs : FS
  log : List LogEntry
deriving Repr

/-- MarkdownToPdfConverter.convert_file: the try block, then the `except`
handler (log `转换失败` and return False), then the `finally` cleanup that
unlinks the temporary HTML file when it exists. -/
def convert_file (env : Env) (fs : FS) (md_file : FPath) : FileResult :=
  let temp_html_file := tempPathOf md_file
  match convert_file_try env fs md_file with
  | (out, fs1, lg) =>
    let fs2 := if fs1.fileExists temp_html_file then fs1.unlink temp_html_file else fs1
    match out with
    | Except.ok _ => { ok := true, fs := fs2, log := lg }
    | Except.error e =>
        { ok := false, fs := fs2, log := lg ++ [LogEntry.error ("转换失败: " ++ e)] }

/-- Accumulated state of the per-file loop of convert_all. -/
structure LoopResult where
  success : Nat
  fail : Nat
  fs : FS
  log : List LogEntry
  processed : List FPath
deriving Repr

/-- The `for md_file in md_files` loop of convert_all: convert each file in
order, incrementing success_count or fail_count. -/
def runFiles (env : Env) (files : List FPath) (fs : FS) : LoopResult :=
  match files with
  | [] => { success := 0, fail := 0, fs := fs, log := [], processed := [] }
  | p :: ps =>
    let r := convert_file env fs p
    let rest := runFiles env ps r.fs
    if r.ok then
      { success := rest.success + 1, fail := rest.fail, fs := rest.fs,
        log := r.log ++ rest.log, processed := p :: rest.processed }
    else
      { success := rest.success, fail := rest.fail + 1, fs := rest.fs,
        log := r.log ++ rest.log, processed := p :: rest.processed }

/-- Result of convert_all. -/
structure BatchResult where
  fs : FS
  success : Nat
  fail : Nat
  printed : List String
  log : List LogEntry
  processed : List FPath
deriving Repr

/-- The `finally` clause of convert_all: remove the temporary directory when
it exists. -/
def finalizeTemp (fs : FS) : FS :=
  if fs.dirExists temp_dir then fs.rmtreeTemp else fs

/-- MarkdownToPdfConverter.convert_all: check the input directory, glob the
markdown files, run the loop, print the summary; the temporary directory is
removed in the `finally` clause on every path. -/
def convert_all (env : Env) (fs : FS) : BatchResult :=
  if fs.dirExists input_dir = false then
    { fs := finalizeTemp fs, success := 0, fail := 0,
      printed := ["错误: 输入目录 \x27" ++ input_dir ++ "\x27 不存在!"],
      log := [], processed := [] }
  else
    let md_files := globMd fs
    if md_files.isEmpty then
      { fs := finalizeTemp fs, success := 0, fail := 0,
        printed := ["在 " ++ input_dir ++ " 中没有找到Markdown文件"],
        log := [], processed := [] }
    else
      let r := runFiles env md_files fs
      { fs := finalizeTemp r.fs, success := r.success, fail := r.fail,
        printed := ["找到 " ++ toString md_files.length ++ " 个Markdown文件",
                    "\n转换完成:",
                    "成功: " ++ toString r.success ++ " 个",
                    "失败: " ++ toString r.fail ++ " 个",
                    "\nPDF文件已保存到: " ++ output_dir],
        log := r.log, processed := r.processed }

/-- MarkdownToPdfConverter.__init__ after the logging setup: create the
output and temporary directories, then check for the wkhtmltopdf executable
(`wkExists` is whether os.path.exists finds it); on failure print the
remediation lines and raise FileNotFoundError.  Returns the filesystem (the
directories are created before the check), the raised error if any, and the
printed lines. -/
def initConverter (wkExists : Bool) (fs : FS) : FS × Option String × List String :=
  let fs1 := (fs.mkdirp output_dir).mkdirp temp_dir
  if wkExists then (fs1, none, [])
  else (fs1, some "wkhtmltopdf not found",
        ["错误: 未找到wkhtmltopdf，请先安装wkhtmltopdf！",
         "下载地址: https://wkhtmltopdf.org/downloads.html"])

/-- The directory creation performed by __init__, as a filesystem function. -/
def initFs (fs : FS) : FS := (fs.mkdirp output_dir).mkdirp temp_dir

/-- Result of one whole program run (`if __name__ == '__main__'`). -/
structure RunResult where
  fs : FS
  printed : List String
  batch : Option BatchResult
deriving Repr

/-- The `__main__` block: construct the converter and run convert_all; any
exception is caught at top level and printed; either way the program then
waits for a key press. -/
def mainRun (wkExists : Bool) (env : Env) (fs : FS) : RunResult :=
  match initConverter wkExists fs with
  | (fs1, none, pr) =>
    let b := convert_all env fs1
    { fs := b.fs, printed := pr ++ b.printed ++ ["\n按回车键退出..."], batch := some b }
  | (fs1, some e, pr) =>
    { fs := fs1, printed := pr ++ ["发生错误: " ++ e, "\n按回车键退出..."],
      batch := none }

/-- Classification of one file's pipeline against a fixed environment: which
stage fails first, or what pagination produces.  This is determined by the
environment and the file alone (the HTML content fed to pagination is a
function of the oracles), and is used to analyse convert_file. -/
inductive PipeOutcome where
  | readErr (e : String)
  | renderErr (e : String)
  | writeErr (e : String)
  | pagErr (e : String)
  | pagNone
  | pagWrote (c : String)
deriving DecidableEq, Repr

/-- The outcome of one file's pipeline under environment `env`. -/
def pipeOutcome (env : Env) (md_file : FPath) : PipeOutcome :=
  match env.readFile md_file with
  | Except.error e => PipeOutcome.readErr e
  | Except.ok md_content =>
    match env.renderMd extensions md_content with
    | Except.error e => PipeOutcome.renderErr e
    | Except.ok body =>
      let html := html_template body
      match env.writeTemp (tempPathOf md_file) html with
      | some e => PipeOutcome.writeErr e
      | none =>
        match env.paginate html with
        | Except.error e => PipeOutcome.pagErr e
        | Except.ok none => PipeOutcome.pagNone
        | Except.ok (some c) => PipeOutcome.pagWrote c

/-- The boolean convert_file returns, as a function of the pipeline outcome
and of what the output path held before the call (consulted only when
pagination returns without creating the file). -/
def fileOk (env : Env) (md_file : FPath) (prior : Option String) : Bool :=
  match pipeOutcome env md_file with
  | PipeOutcome.pagWrote c => decide (¬ c.length = 0)
  | PipeOutcome.pagNone =>
    match prior with
    | some c => decide (¬ c.length = 0)
    | none => false
  | _ => false

/-- A deterministic external world where every stage succeeds and pagination
produces the bytes "PDFDATA". -/
def envAllOk : Env :=
  { readFile := fun _ => Except.ok "# hello",
    renderMd := fun _ _ => Except.ok "<h1>hello</h1>",
    writeTemp := fun _ _ => none,
    paginate := fun _ => Except.ok (some "PDFDATA") }

/-- A deterministic external world where reading and rendering succeed but
the pagination call raises with message "boom". -/
def envPagRaise : Env :=
  { readFile := fun _ => Except.ok "# hello",
    renderMd := fun _ _ => Except.ok "<h1>hello</h1>",
    writeTemp := fun _ _ => none,
    paginate := fun _ => Except.error "boom" }

/-- A concrete input document path. -/
def docPath : FPath := ⟨input_dir, "doc.md"⟩

/-- A filesystem holding one input document. -/
def fsDoc : FS :=
  { dirs := [input_dir, output_dir, temp_dir],
    files := [(docPath, "# doc")] }

/-- A filesystem holding two input documents. -/
def fsTwo : FS :=
  { dirs := [input_dir],
    files := [(⟨input_dir, "a.md"⟩, "# a"), (⟨input_dir, "b.md"⟩, "# b")] }

/-- A filesystem without the input directory. -/
def fsNoInput : FS := { dirs := [], files := [] }

/-- A deterministic external world in which the document named ".md.md" is
paginated successfully while the document named ".md" makes the engine
return without creating any output file (the failure mode the post-call
size check guards against). -/
def envStemClash : Env :=
  { readFile := fun p => Except.ok p.name,
    renderMd := fun _ s => Except.ok s,
    writeTemp := fun _ _ => none,
    paginate := fun h =>
      if strContains h ".md.md" then Except.ok (some "PDF") else Except.ok none }

/-- A filesystem holding the two input documents ".md" and ".md.md": both
match the '*.md' glob and both have pathlib stem ".md", so both conversions
target the same output path ".md.pdf". -/
def fsClash : FS :=
  { dirs := [input_dir],
    files := [(⟨input_dir, ".md"⟩, "x"), (⟨input_dir, ".md.md"⟩, "y")] }

/-! ## Filesystem lemmas -/

theorem findKey_filter_ne (l : List (FPath × String)) (p q : FPath) (h : ¬ q = p) :
    (l.filter (fun e => decide (¬ e.1 = p))).find? (fun e => decide (e.1 = q))
      = l.find? (fun e => decide (e.1 = q)) := by
  induction l with
  | nil => rfl
  | cons a t ih =>
    by_cases hp : a.1 = p
    · have hnq : ¬ a.1 = q := by rw [hp]; exact fun hh => h hh.symm
      rw [List.filter_cons_of_neg (by simp [hp]), List.find?_cons_of_neg _ (by simp [hnq])]
      exact ih
    · rw [List.filter_cons_of_pos (by simp [hp])]
      by_cases hq : a.1 = q
      · rw [List.find?_cons_of_pos _ (by simp [hq]), List.find?_cons_of_pos _ (by simp [hq])]
      · rw [List.find?_cons_of_neg _ (by simp [hq]), List.find?_cons_of_neg _ (by simp [hq])]
        exact ih

theorem findKey_filter_dir (l : List (FPath × String)) (q : FPath)
    (h : ¬ q.dir = temp_dir) :
    (l.filter (fun e => decide (¬ e.1.dir = temp_dir))).find? (fun e => decide (e.1 = q))
      = l.find? (fun e => decide (e.1 = q)) := by
  induction l with
  | nil => rfl
  | cons a t ih =>
    by_cases ht : a.1.dir = temp_dir
    · have hnq : ¬ a.1 = q := fun hh => h (hh ▸ ht)
      rw [List.filter_cons_of_neg (by simp [ht]), List.find?_cons_of_neg _ (by simp [hnq])]
      exact ih
    · rw [List.filter_cons_of_pos (by simp [ht])]
      by_cases hq : a.1 = q
      · rw [List.find?_cons_of_pos _ (by simp [hq]), List.find?_cons_of_pos _ (by simp [hq])]
      · rw [List.find?_cons_of_neg _ (by simp [hq]), List.find?_cons_of_neg _ (by simp [hq])]
        exact ih

theorem anyKey_eq_isSome_find (l : List (FPath × String)) (q : FPath) :
    (l.any fun e => decide (e.1 = q)) = (l.find? (fun e => decide (e.1 = q))).isSome := by
  induction l with
  | nil => rfl
  | cons a t ih =>
    by_cases h : a.1 = q
    · rw [List.find?_cons_of_pos _ (by simp [h])]
      simp [List.any_cons, h]
    · rw [List.find?_cons_of_neg _ (by simp [h])]
      rw [List.any_cons, ih]
      simp [h]

theorem FS.lookupFile_writeFile (fs : FS) (p q : FPath) (c : String) :
    (fs.writeFile p c).lookupFile q = if q = p then some c else fs.lookupFile q := by
  by_cases h : q = p
  · subst h
    rw [if_pos rfl]
    unfold FS.writeFile FS.lookupFile
    dsimp only
    rw [List.find?_cons_of_pos _ (by simp)]
    rfl
  · rw [if_neg h]
    unfold FS.writeFile FS.lookupFile
    dsimp only
    rw [List.find?_cons_of_neg _ (by simp; exact fun hh => h hh.symm),
        findKey_filter_ne _ _ _ h]

theorem FS.lookupFile_unlink (fs : FS) (p q : FPath) :
    (fs.unlink p).lookupFile q = if q = p then none else fs.lookupFile q := by
  by_cases h : q = p
  · subst h
    rw [if_pos rfl]
    unfold FS.unlink FS.lookupFile
    dsimp only
    have hnone :
        (fs.files.filter (fun e => decide (¬ e.1 = q))).find? (fun e => decide (e.1 = q))
          = none := by
      rw [List.find?_eq_none]
      intro x hx
      rw [List.mem_filter] at hx
      simpa using hx.2
    rw [hnone]
    rfl
  · rw [if_neg h]
    unfold FS.unlink FS.lookupFile
    dsimp only
    rw [findKey_filter_ne _ _ _ h]

theorem FS.lookupFile_rmtreeTemp (fs : FS) (q : FPath) (h : ¬ q.dir = temp_dir) :
    fs.rmtreeTemp.lookupFile q = fs.lookupFile q := by
  unfold FS.rmtreeTemp FS.lookupFile
  dsimp only
  rw [findKey_filter_dir _ _ h]

theorem FS.fileExists_eq_isSome (fs : FS) (q : FPath) :
    fs.fileExists q = (fs.lookupFile q).isSome := by
  unfold FS.fileExists FS.lookupFile
  rw [anyKey_eq_isSome_find]
  rw [Option.isSome_map']

theorem FS.fileExists_unlink_self (fs : FS) (p : FPath) :
    (fs.unlink p).fileExists p = false := by
  rw [FS.fileExists_eq_isSome, FS.lookupFile_unlink, if_pos rfl]
  rfl

theorem FS.dirs_writeFile (fs : FS) (p : FPath) (c : String) :
    (fs.writeFile p c).dirs = fs.dirs := rfl

theorem FS.dirs_unlink (fs : FS) (p : FPath) : (fs.unlink p).dirs = fs.dirs := rfl

theorem FS.files_mkdirp (fs : FS) (d : String) : (fs.mkdirp d).files = fs.files := by
  unfold FS.mkdirp
  split <;> rfl

theorem FS.dirExists_mkdirp_ne (fs : FS) (d d' : String) (h : ¬ d' = d) :
    (fs.mkdirp d).dirExists d' = fs.dirExists d' := by
  unfold FS.mkdirp
  split
  · rfl
  · have h2 : ¬ d = d' := fun hh => h hh.symm
    unfold FS.dirExists
    simp [List.any_cons, h2]

theorem anyDir_filter_ne (l : List String) (d : String) (h : ¬ d = temp_dir) :
    ((l.filter fun x => decide (¬ x = temp_dir)).any fun x => decide (x = d))
      = l.any fun x => decide (x = d) := by
  induction l with
  | nil => rfl
  | cons a t ih =>
    by_cases ht : a = temp_dir
    · have hnd : ¬ a = d := by rw [ht]; exact fun hh => h hh.symm
      rw [List.filter_cons_of_neg (by simp [ht]), ih, List.any_cons]
      simp [hnd]
    · rw [List.filter_cons_of_pos (by simp [ht]), List.any_cons, List.any_cons, ih]

theorem anyDir_filter_self (l : List String) :
    ((l.filter fun x => decide (¬ x = temp_dir)).any fun x => decide (x = temp_dir))
      = false := by
  induction l with
  | nil => rfl
  | cons a t ih =>
    by_cases ht : a = temp_dir
    · rw [List.filter_cons_of_neg (by simp [ht])]
      exact ih
    · rw [List.filter_cons_of_pos (by simp [ht]), List.any_cons, ih]
      simp [ht]

theorem FS.dirExists_rmtreeTemp_self (fs : FS) :
    fs.rmtreeTemp.dirExists temp_dir = false := by
  unfold FS.rmtreeTemp FS.dirExists
  exact anyDir_filter_self fs.dirs

theorem FS.dirExists_rmtreeTemp_ne (fs : FS) (d : String) (h : ¬ d = temp_dir) :
    fs.rmtreeTemp.dirExists d = fs.dirExists d := by
  unfold FS.rmtreeTemp FS.dirExists
  exact anyDir_filter_ne fs.dirs d h

theorem filterMap_mdSel_filter (l : List (FPath × String)) (g : FPath × String → Bool)
    (h : ∀ e, g e = false → mdSel e = none) :
    (l.filter g).filterMap mdSel = l.filterMap mdSel := by
  induction l with
  | nil => rfl
  | cons a t ih =>
    cases hg : g a with
    | false =>
      rw [List.filter_cons_of_neg (by simp [hg]), List.filterMap_cons_none (h a hg), ih]
    | true =>
      rw [List.filter_cons_of_pos (by simp [hg])]
      simp only [List.filterMap_cons]
      cases hma : mdSel a <;> simp [hma, ih]

theorem globMd_writeFile (fs : FS) (p : FPath) (c : String) (h : ¬ p.dir = input_dir) :
    globMd (fs.writeFile p c) = globMd fs := by
  unfold globMd FS.writeFile
  simp only []
  rw [List.filterMap_cons_none (by simp [mdSel, h])]
  apply filterMap_mdSel_filter
  intro e hg
  simp only [decide_eq_false_iff_not, Decidable.not_not] at hg
  simp [mdSel, hg, h]

theorem globMd_unlink (fs : FS) (p : FPath) (h : ¬ p.dir = input_dir) :
    globMd (fs.unlink p) = globMd fs := by
  unfold globMd FS.unlink
  apply filterMap_mdSel_filter
  intro e hg
  simp only [decide_eq_false_iff_not, Decidable.not_not] at hg
  simp [mdSel, hg, h]

theorem globMd_rmtreeTemp (fs : FS) : globMd fs.rmtreeTemp = globMd fs := by
  unfold globMd FS.rmtreeTemp
  apply filterMap_mdSel_filter
  intro e hg
  simp only [decide_eq_false_iff_not, Decidable.not_not] at hg
  have : ¬ e.1.dir = input_dir := by rw [hg]; decide
  simp [mdSel, this]

theorem globMd_mkdirp (fs : FS) (d : String) : globMd (fs.mkdirp d) = globMd fs := by
  unfold globMd
  rw [FS.files_mkdirp]

/-! ## Path lemmas -/

theorem tempPath_ne_pdfPath (a b : FPath) : ¬ tempPathOf a = pdfPathOf b := by
  intro h
  have h1 : temp_dir = output_dir := congrArg FPath.dir h
  exact absurd h1 (by decide)

theorem pdfPath_dir_ne_temp (a : FPath) : ¬ (pdfPathOf a).dir = temp_dir := by
  show ¬ output_dir = temp_dir
  decide

theorem tempPath_dir_eq (a : FPath) : (tempPathOf a).dir = temp_dir := rfl

theorem pdfPath_ne_of_stem_ne (a b : FPath) (h : ¬ stemOf a.name = stemOf b.name) :
    ¬ pdfPathOf a = pdfPathOf b := by
  intro he
  apply h
  have h2 : stemOf a.name ++ ".pdf" = stemOf b.name ++ ".pdf" := congrArg FPath.name he
  have h3 := congrArg String.data h2
  simp only [String.data_append] at h3
  exact String.ext (List.append_cancel_right h3)

/-! ## Cleanup (finally-clause) lemmas -/

theorem lookup_cleanup (fs : FS) (t q : FPath) (h : ¬ q = t) :
    (if fs.fileExists t then fs.unlink t else fs).lookupFile q = fs.lookupFile q := by
  split
  · rw [FS.lookupFile_unlink, if_neg h]
  · rfl

theorem dirs_cleanup (fs : FS) (t : FPath) :
    (if fs.fileExists t then fs.unlink t else fs).dirs = fs.dirs := by
  split <;> rfl

theorem fileExists_cleanup (fs : FS) (t : FPath) :
    (if fs.fileExists t then fs.unlink t else fs).fileExists t = false := by
  by_cases h : fs.fileExists t
  · rw [if_pos h]
    exact FS.fileExists_unlink_self fs t
  · rw [if_neg h]
    simpa using h

/-! ## Characterization of convert_file -/

theorem convert_file_chars (env : Env) (fs : FS) (p : FPath) :
    (convert_file env fs p).fs.dirs = fs.dirs
    ∧ (convert_file env fs p).ok = fileOk env p (fs.lookupFile (pdfPathOf p))
    ∧ (∀ q : FPath, ¬ q = tempPathOf p → ¬ q = pdfPathOf p →
        (convert_file env fs p).fs.lookupFile q = fs.lookupFile q)
    ∧ ((convert_file env fs p).fs.lookupFile (pdfPathOf p) =
        match pipeOutcome env p with
        | PipeOutcome.pagWrote c => some c
        | _ => fs.lookupFile (pdfPathOf p)) := by
  have hpt : ¬ (pdfPathOf p) = tempPathOf p := fun hh => tempPath_ne_pdfPath p p hh.symm
  unfold convert_file convert_file_try convert_md_to_html fileOk pipeOutcome
  cases hr : env.readFile p with
  | error e =>
    simp only [hr]
    exact ⟨dirs_cleanup _ _, by trivial,
           fun q hqt _ => lookup_cleanup _ _ _ hqt,
           lookup_cleanup _ _ _ hpt⟩
  | ok content =>
    simp only [hr]
    cases hm : env.renderMd extensions content with
    | error e =>
      simp only [hm]
      exact ⟨dirs_cleanup _ _, by trivial,
             fun q hqt _ => lookup_cleanup _ _ _ hqt,
             lookup_cleanup _ _ _ hpt⟩
    | ok body =>
      simp only [hm]
      cases hw : env.writeTemp (tempPathOf p) (html_template body) with
      | some e =>
        simp only [hw]
        refine ⟨?_, by trivial, ?_, ?_⟩
        · rw [dirs_cleanup, FS.dirs_writeFile]
        · intro q hqt hqp
          rw [lookup_cleanup _ _ _ hqt, FS.lookupFile_writeFile, if_neg hqt]
        · rw [lookup_cleanup _ _ _ hpt, FS.lookupFile_writeFile, if_neg hpt]
      | none =>
        simp only [hw]
        cases hp : env.paginate (html_template body) with
        | error e =>
          simp only [hp]
          refine ⟨?_, by trivial, ?_, ?_⟩
          · rw [dirs_cleanup, FS.dirs_writeFile]
          · intro q hqt hqp
            rw [lookup_cleanup _ _ _ hqt, FS.lookupFile_writeFile, if_neg hqt]
          · rw [lookup_cleanup _ _ _ hpt, FS.lookupFile_writeFile, if_neg hpt]
        | ok res =>
          simp only [hp]
          cases res with
          | none =>
            have hlp :
                (fs.writeFile (tempPathOf p) (html_template body)).lookupFile (pdfPathOf p)
                  = fs.lookupFile (pdfPathOf p) := by
              rw [FS.lookupFile_writeFile, if_neg hpt]
            cases hl : fs.lookupFile (pdfPathOf p) with
            | none =>
              have hfe :
                  (fs.writeFile (tempPathOf p) (html_template body)).fileExists (pdfPathOf p)
                    = false := by
                rw [FS.fileExists_eq_isSome, hlp, hl]
                rfl
              rw [if_pos (Or.inl hfe)]
              dsimp only
              refine ⟨?_, by trivial, ?_, ?_⟩
              · rw [dirs_cleanup, FS.dirs_writeFile]
              · intro q hqt hqp
                rw [lookup_cleanup _ _ _ hqt, FS.lookupFile_writeFile, if_neg hqt]
              · rw [lookup_cleanup _ _ _ hpt, hlp, hl]
            | some c =>
              have hfe :
                  (fs.writeFile (tempPathOf p) (html_template body)).fileExists (pdfPathOf p)
                    = true := by
                rw [FS.fileExists_eq_isSome, hlp, hl]
                rfl
              have hsz :
                  (fs.writeFile (tempPathOf p) (html_template body)).fileSize (pdfPathOf p)
                    = c.length := by
                unfold FS.fileSize
                rw [hlp, hl]
              by_cases hc : c.length = 0
              · rw [if_pos (Or.inr (by rw [hsz, hc]))]
                dsimp only
                refine ⟨?_, by simp [hc], ?_, ?_⟩
                · rw [dirs_cleanup, FS.dirs_writeFile]
                · intro q hqt hqp
                  rw [lookup_cleanup _ _ _ hqt, FS.lookupFile_writeFile, if_neg hqt]
                · rw [lookup_cleanup _ _ _ hpt, hlp, hl]
              · rw [if_neg ?_]
                · dsimp only
                  refine ⟨?_, by simp [hc], ?_, ?_⟩
                  · rw [dirs_cleanup, FS.dirs_writeFile]
                  · intro q hqt hqp
                    rw [lookup_cleanup _ _ _ hqt, FS.lookupFile_writeFile, if_neg hqt]
                  · rw [lookup_cleanup _ _ _ hpt, hlp, hl]
                · rintro (h1 | h2)
                  · rw [hfe] at h1
                    cases h1
                  · rw [hsz] at h2
                    exact hc h2
          | some c =>
            have hl2 :
                ((fs.writeFile (tempPathOf p) (html_template body)).writeFile
                    (pdfPathOf p) c).lookupFile (pdfPathOf p) = some c := by
              rw [FS.lookupFile_writeFile, if_pos rfl]
            have hfe :
                ((fs.writeFile (tempPathOf p) (html_template body)).writeFile
                    (pdfPathOf p) c).fileExists (pdfPathOf p) = true := by
              rw [FS.fileExists_eq_isSome, hl2]
              rfl
            have hsz :
                ((fs.writeFile (tempPathOf p) (html_template body)).writeFile
                    (pdfPathOf p) c).fileSize (pdfPathOf p) = c.length := by
              unfold FS.fileSize
              rw [hl2]
            by_cases hc : c.length = 0
            · rw [if_pos (Or.inr (by rw [hsz, hc]))]
              dsimp only
              refine ⟨?_, by simp [hc], ?_, ?_⟩
              · rw [dirs_cleanup, FS.dirs_writeFile, FS.dirs_writeFile]
              · intro q hqt hqp
                rw [lookup_cleanup _ _ _ hqt, FS.lookupFile_writeFile, if_neg hqp,
                    FS.lookupFile_writeFile, if_neg hqt]
              · rw [lookup_cleanup _ _ _ hpt, hl2]
            · rw [if_neg ?_]
              · dsimp only
                refine ⟨?_, by simp [hc], ?_, ?_⟩
                · rw [dirs_cleanup, FS.dirs_writeFile, FS.dirs_writeFile]
                · intro q hqt hqp
                  rw [lookup_cleanup _ _ _ hqt, FS.lookupFile_writeFile, if_neg hqp,
                      FS.lookupFile_writeFile, if_neg hqt]
                · rw [lookup_cleanup _ _ _ hpt, hl2]
              · rintro (h1 | h2)
                · rw [hfe] at h1
                  cases h1
                · rw [hsz] at h2
                  exact hc h2

/-! ## Loop lemmas -/

theorem runFiles_counts (env : Env) (files : List FPath) (fs : FS) :
    (runFiles env files fs).success + (runFiles env files fs).fail = files.length := by
  induction files generalizing fs with
  | nil => rfl
  | cons p ps ih =>
    unfold runFiles
    dsimp only
    split
    · dsimp only
      have := ih (convert_file env fs p).fs
      simp only [List.length_cons]
      omega
    · dsimp only
      have := ih (convert_file env fs p).fs
      simp only [List.length_cons]
      omega

theorem runFiles_processed (env : Env) (files : List FPath) (fs : FS) :
    (runFiles env files fs).processed = files := by
  induction files generalizing fs with
  | nil => rfl
  | cons p ps ih =>
    unfold runFiles
    dsimp only
    split
    · dsimp only
      rw [ih]
    · dsimp only
      rw [ih]

theorem runFiles_dirs (env : Env) (files : List FPath) (fs : FS) :
    (runFiles env files fs).fs.dirs = fs.dirs := by
  induction files generalizing fs with
  | nil => rfl
  | cons p ps ih =>
    unfold runFiles
    dsimp only
    split
    · dsimp only
      rw [ih, (convert_file_chars env fs p).1]
    · dsimp only
      rw [ih, (convert_file_chars env fs p).1]

/-! ## Key-uniqueness and glob preservation -/

theorem keysNodup_filter (l : List (FPath × String)) (g : FPath × String → Bool)
    (h : (l.map (fun e => e.1)).Nodup) : ((l.filter g).map (fun e => e.1)).Nodup :=
  h.sublist ((List.filter_sublist l).map _)

theorem FS.keysNodup_writeFile (fs : FS) (p : FPath) (c : String) (h : fs.keysNodup) :
    (fs.writeFile p c).keysNodup := by
  unfold FS.keysNodup FS.writeFile at *
  dsimp only
  simp only [List.map_cons]
  refine List.nodup_cons.mpr ⟨?_, keysNodup_filter _ _ h⟩
  intro hmem
  rw [List.mem_map] at hmem
  obtain ⟨e, he, hee⟩ := hmem
  rw [List.mem_filter] at he
  have h2 := he.2
  simp only [decide_eq_true_eq] at h2
  exact h2 hee

theorem FS.keysNodup_unlink (fs : FS) (p : FPath) (h : fs.keysNodup) :
    (fs.unlink p).keysNodup := by
  unfold FS.keysNodup FS.unlink at *
  exact keysNodup_filter _ _ h

theorem FS.keysNodup_rmtreeTemp (fs : FS) (h : fs.keysNodup) : fs.rmtreeTemp.keysNodup := by
  unfold FS.keysNodup FS.rmtreeTemp at *
  exact keysNodup_filter _ _ h

theorem FS.keysNodup_mkdirp (fs : FS) (d : String) (h : fs.keysNodup) :
    (fs.mkdirp d).keysNodup := by
  unfold FS.keysNodup at *
  rw [FS.files_mkdirp]
  exact h

theorem keysNodup_cleanup (fs : FS) (t : FPath) (h : fs.keysNodup) :
    (if fs.fileExists t then fs.unlink t else fs).keysNodup := by
  split
  · exact FS.keysNodup_unlink fs t h
  · exact h

theorem globMd_cleanup (fs : FS) (t : FPath) (h : ¬ t.dir = input_dir) :
    globMd (if fs.fileExists t then fs.unlink t else fs) = globMd fs := by
  split
  · exact globMd_unlink fs t h
  · rfl

theorem convert_file_fsInv (env : Env) (fs : FS) (p : FPath) :
    globMd (convert_file env fs p).fs = globMd fs
    ∧ (fs.keysNodup → (convert_file env fs p).fs.keysNodup) := by
  have htd : ¬ (tempPathOf p).dir = input_dir := by
    show ¬ temp_dir = input_dir
    decide
  have hpd : ¬ (pdfPathOf p).dir = input_dir := by
    show ¬ output_dir = input_dir
    decide
  unfold convert_file convert_file_try convert_md_to_html
  cases hr : env.readFile p with
  | error e =>
    simp only [hr]
    exact ⟨globMd_cleanup _ _ htd, fun h => keysNodup_cleanup _ _ h⟩
  | ok content =>
    simp only [hr]
    cases hm : env.renderMd extensions content with
    | error e =>
      simp only [hm]
      exact ⟨globMd_cleanup _ _ htd, fun h => keysNodup_cleanup _ _ h⟩
    | ok body =>
      simp only [hm]
      cases hw : env.writeTemp (tempPathOf p) (html_template body) with
      | some e =>
        simp only [hw]
        constructor
        · rw [globMd_cleanup _ _ htd, globMd_writeFile _ _ _ htd]
        · exact fun h => keysNodup_cleanup _ _ (FS.keysNodup_writeFile _ _ _ h)
      | none =>
        simp only [hw]
        cases hp : env.paginate (html_template body) with
        | error e =>
          simp only [hp]
          constructor
          · rw [globMd_cleanup _ _ htd, globMd_writeFile _ _ _ htd]
          · exact fun h => keysNodup_cleanup _ _ (FS.keysNodup_writeFile _ _ _ h)
        | ok res =>
          simp only [hp]
          cases res with
          | none =>
            by_cases hv :
                ((fs.writeFile (tempPathOf p) (html_template body)).fileExists (pdfPathOf p)
                    = false
                  ∨ (fs.writeFile (tempPathOf p) (html_template body)).fileSize (pdfPathOf p)
                    = 0)
            · rw [if_pos hv]
              dsimp only
              constructor
              · rw [globMd_cleanup _ _ htd, globMd_writeFile _ _ _ htd]
              · exact fun h => keysNodup_cleanup _ _ (FS.keysNodup_writeFile _ _ _ h)
            · rw [if_neg hv]
              dsimp only
              constructor
              · rw [globMd_cleanup _ _ htd, globMd_writeFile _ _ _ htd]
              · exact fun h => keysNodup_cleanup _ _ (FS.keysNodup_writeFile _ _ _ h)
          | some c =>
            by_cases hv :
                (((fs.writeFile (tempPathOf p) (html_template body)).writeFile (pdfPathOf p)
                      c).fileExists (pdfPathOf p) = false
                  ∨ ((fs.writeFile (tempPathOf p) (html_template body)).writeFile (pdfPathOf p)
                      c).fileSize (pdfPathOf p) = 0)
            · rw [if_pos hv]
              dsimp only
              constructor
              · rw [globMd_cleanup _ _ htd, globMd_writeFile _ _ _ hpd,
                    globMd_writeFile _ _ _ htd]
              · exact fun h => keysNodup_cleanup _ _
                  (FS.keysNodup_writeFile _ _ _ (FS.keysNodup_writeFile _ _ _ h))
            · rw [if_neg hv]
              dsimp only
              constructor
              · rw [globMd_cleanup _ _ htd, globMd_writeFile _ _ _ hpd,
                    globMd_writeFile _ _ _ htd]
              · exact fun h => keysNodup_cleanup _ _
                  (FS.keysNodup_writeFile _ _ _ (FS.keysNodup_writeFile _ _ _ h))

theorem runFiles_globMd (env : Env) (files : List FPath) (fs : FS) :
    globMd (runFiles env files fs).fs = globMd fs := by
  induction files generalizing fs with
  | nil => rfl
  | cons p ps ih =>
    unfold runFiles
    dsimp only
    split
    · dsimp only
      rw [ih, (convert_file_fsInv env fs p).1]
    · dsimp only
      rw [ih, (convert_file_fsInv env fs p).1]

theorem runFiles_keysNodup (env : Env) (files : List FPath) (fs : FS) (h : fs.keysNodup) :
    (runFiles env files fs).fs.keysNodup := by
  induction files generalizing fs h with
  | nil => exact h
  | cons p ps ih =>
    unfold runFiles
    dsimp only
    split
    · dsimp only
      exact ih _ ((convert_file_fsInv env fs p).2 h)
    · dsimp only
      exact ih _ ((convert_file_fsInv env fs p).2 h)

/-! ## Determinism of the loop across runs -/

theorem runFiles_lookup_pdf (env : Env) (q : FPath) (files : List FPath) (fs : FS)
    (H : ∀ p2, p2 ∈ files → stemOf p2.name = stemOf q.name →
         ∀ c, ¬ pipeOutcome env p2 = PipeOutcome.pagWrote c) :
    (runFiles env files fs).fs.lookupFile (pdfPathOf q) = fs.lookupFile (pdfPathOf q) := by
  induction files generalizing fs with
  | nil => rfl
  | cons p ps ih =>
    unfold runFiles
    dsimp only
    have hstep :
        (convert_file env fs p).fs.lookupFile (pdfPathOf q) = fs.lookupFile (pdfPathOf q) := by
      by_cases hst : stemOf p.name = stemOf q.name
      · have hpq : pdfPathOf q = pdfPathOf p := by
          unfold pdfPathOf
          rw [hst]
        have hnw := H p (List.mem_cons_self p ps) hst
        rw [hpq, (convert_file_chars env fs p).2.2.2]
        cases ho : pipeOutcome env p
        all_goals first | rfl | exact absurd ho (hnw _)
      · have h1 : ¬ pdfPathOf q = pdfPathOf p :=
          pdfPath_ne_of_stem_ne q p (fun hh => hst hh.symm)
        have h2 : ¬ pdfPathOf q = tempPathOf p := fun hh => tempPath_ne_pdfPath p q hh.symm
        exact (convert_file_chars env fs p).2.2.1 (pdfPathOf q) h2 h1
    split
    · dsimp only
      rw [ih _ (fun p2 hp2 => H p2 (List.mem_cons_of_mem _ hp2)), hstep]
    · dsimp only
      rw [ih _ (fun p2 hp2 => H p2 (List.mem_cons_of_mem _ hp2)), hstep]

theorem runFiles_counts_eq (env : Env) (files : List FPath) (fs fs' : FS)
    (hnd : (files.map (fun p => stemOf p.name)).Nodup)
    (H : ∀ q, q ∈ files → pipeOutcome env q = PipeOutcome.pagNone →
         fs.lookupFile (pdfPathOf q) = fs'.lookupFile (pdfPathOf q)) :
    (runFiles env files fs).success = (runFiles env files fs').success
    ∧ (runFiles env files fs).fail = (runFiles env files fs').fail := by
  induction files generalizing fs fs' with
  | nil => exact ⟨rfl, rfl⟩
  | cons p ps ih =>
    have hok : (convert_file env fs p).ok = (convert_file env fs' p).ok := by
      rw [(convert_file_chars env fs p).2.1, (convert_file_chars env fs' p).2.1]
      unfold fileOk
      cases ho : pipeOutcome env p
      all_goals first | rfl | rw [H p (List.mem_cons_self p ps) ho]
    have hnd2 : (ps.map (fun r => stemOf r.name)).Nodup := by
      rw [List.map_cons] at hnd
      exact (List.nodup_cons.mp hnd).2
    have hnm : stemOf p.name ∉ ps.map (fun r => stemOf r.name) := by
      rw [List.map_cons] at hnd
      exact (List.nodup_cons.mp hnd).1
    have Hps : ∀ q, q ∈ ps → pipeOutcome env q = PipeOutcome.pagNone →
        (convert_file env fs p).fs.lookupFile (pdfPathOf q)
          = (convert_file env fs' p).fs.lookupFile (pdfPathOf q) := by
      intro q hq ho
      have hstne : ¬ stemOf p.name = stemOf q.name := by
        intro hh
        exact hnm (hh ▸ List.mem_map_of_mem (fun r => stemOf r.name) hq)
      have h1 : ¬ pdfPathOf q = pdfPathOf p :=
        pdfPath_ne_of_stem_ne q p (fun hh => hstne hh.symm)
      have h2 : ¬ pdfPathOf q = tempPathOf p := fun hh => tempPath_ne_pdfPath p q hh.symm
      rw [(convert_file_chars env fs p).2.2.1 _ h2 h1,
          (convert_file_chars env fs' p).2.2.1 _ h2 h1]
      exact H q (List.mem_cons_of_mem _ hq) ho
    have htail := ih _ _ hnd2 Hps
    unfold runFiles
    dsimp only
    rw [hok]
    split
    · dsimp only
      exact ⟨by rw [htail.1], by rw [htail.2]⟩
    · dsimp only
      exact ⟨by rw [htail.1], by rw [htail.2]⟩

/-! ## Setup and teardown lemmas -/

theorem globMd_finalizeTemp (fs : FS) : globMd (finalizeTemp fs) = globMd fs := by
  unfold finalizeTemp
  split
  · exact globMd_rmtreeTemp fs
  · rfl

theorem globMd_initFs (fs : FS) : globMd (initFs fs) = globMd fs := by
  unfold initFs
  rw [globMd_mkdirp, globMd_mkdirp]

theorem lookup_finalizeTemp (fs : FS) (q : FPath) (h : ¬ q.dir = temp_dir) :
    (finalizeTemp fs).lookupFile q = fs.lookupFile q := by
  unfold finalizeTemp
  split
  · exact FS.lookupFile_rmtreeTemp fs q h
  · rfl

theorem lookup_initFs (fs : FS) (q : FPath) :
    (initFs fs).lookupFile q = fs.lookupFile q := by
  unfold initFs FS.lookupFile
  rw [FS.files_mkdirp]
  rw [FS.files_mkdirp]

theorem keysNodup_finalizeTemp (fs : FS) (h : fs.keysNodup) : (finalizeTemp fs).keysNodup := by
  unfold finalizeTemp
  split
  · exact FS.keysNodup_rmtreeTemp fs h
  · exact h

theorem keysNodup_initFs (fs : FS) (h : fs.keysNodup) : (initFs fs).keysNodup :=
  FS.keysNodup_mkdirp _ _ (FS.keysNodup_mkdirp _ _ h)

theorem dirExists_temp_finalizeTemp (fs : FS) :
    (finalizeTemp fs).dirExists temp_dir = false := by
  unfold finalizeTemp
  split
  · exact FS.dirExists_rmtreeTemp_self fs
  · next h => simpa using h

theorem dirExists_input_finalizeTemp (fs : FS) :
    (finalizeTemp fs).dirExists input_dir = fs.dirExists input_dir := by
  unfold finalizeTemp
  split
  · exact FS.dirExists_rmtreeTemp_ne fs input_dir (by decide)
  · rfl

theorem dirExists_input_initFs (fs : FS) :
    (initFs fs).dirExists input_dir = fs.dirExists input_dir := by
  unfold initFs
  rw [FS.dirExists_mkdirp_ne _ _ _ (by decide), FS.dirExists_mkdirp_ne _ _ _ (by decide)]

/-! ## convert_all level lemmas -/

theorem convert_all_dirExists_temp (env : Env) (fs : FS) :
    (convert_all env fs).fs.dirExists temp_dir = false := by
  unfold convert_all
  split
  · exact dirExists_temp_finalizeTemp fs
  · dsimp only
    split
    · exact dirExists_temp_finalizeTemp fs
    · exact dirExists_temp_finalizeTemp _

theorem convert_all_globMd (env : Env) (fs : FS) :
    globMd (convert_all env fs).fs = globMd fs := by
  unfold convert_all
  split
  · exact globMd_finalizeTemp fs
  · dsimp only
    split
    · exact globMd_finalizeTemp fs
    · dsimp only
      rw [globMd_finalizeTemp, runFiles_globMd]

theorem convert_all_dirExists_input (env : Env) (fs : FS) :
    (convert_all env fs).fs.dirExists input_dir = fs.dirExists input_dir := by
  unfold convert_all
  split
  · exact dirExists_input_finalizeTemp fs
  · dsimp only
    split
    · exact dirExists_input_finalizeTemp fs
    · dsimp only
      rw [dirExists_input_finalizeTemp]
      unfold FS.dirExists
      rw [runFiles_dirs]

theorem convert_all_keysNodup (env : Env) (fs : FS) (h : fs.keysNodup) :
    (convert_all env fs).fs.keysNodup := by
  unfold convert_all
  split
  · exact keysNodup_finalizeTemp fs h
  · dsimp only
    split
    · exact keysNodup_finalizeTemp fs h
    · exact keysNodup_finalizeTemp _ (runFiles_keysNodup env _ fs h)

theorem convert_all_counts_main (env : Env) (fs : FS) (h1 : fs.dirExists input_dir = true) :
    (convert_all env fs).success = (runFiles env (globMd fs) fs).success
    ∧ (convert_all env fs).fail = (runFiles env (globMd fs) fs).fail := by
  unfold convert_all
  rw [h1, if_neg (by decide)]
  dsimp only
  by_cases he : (globMd fs).isEmpty
  · rw [if_pos he]
    rw [List.isEmpty_iff.mp he]
    exact ⟨rfl, rfl⟩
  · rw [if_neg he]
    exact ⟨rfl, rfl⟩

theorem convert_all_lookup_pdf (env : Env) (fs : FS) (q : FPath)
    (H : ∀ p2, p2 ∈ globMd fs → stemOf p2.name = stemOf q.name →
         ∀ c, ¬ pipeOutcome env p2 = PipeOutcome.pagWrote c) :
    (convert_all env fs).fs.lookupFile (pdfPathOf q) = fs.lookupFile (pdfPathOf q) := by
  have hpd : ¬ (pdfPathOf q).dir = temp_dir := pdfPath_dir_ne_temp q
  unfold convert_all
  split
  · exact lookup_finalizeTemp fs _ hpd
  · dsimp only
    split
    · exact lookup_finalizeTemp fs _ hpd
    · dsimp only
      rw [lookup_finalizeTemp _ _ hpd, runFiles_lookup_pdf env q (globMd fs) fs H]

theorem convert_all_counts_zero (env : Env) (fs : FS)
    (h : fs.dirExists input_dir = false) :
    (convert_all env fs).success = 0 ∧ (convert_all env fs).fail = 0 := by
  unfold convert_all
  rw [h, if_pos rfl]
  exact ⟨rfl, rfl⟩

/-! ## Claim theorems -/

/-- C1: for every run of convert_all over an existing input directory, every
file of the '*.md' listing is handed to convert_file exactly once, in listing
order (the processed trace equals the listing), and at the end
success_count + fail_count equals the number of listed files. -/
theorem C1_batch_counts (env : Env) (fs : FS) (h : fs.dirExists input_dir = true) :
    (convert_all env fs).success + (convert_all env fs).fail = (globMd fs).length
    ∧ (convert_all env fs).processed = globMd fs := by
  unfold convert_all
  rw [h, if_neg (by decide)]
  dsimp only
  by_cases he : (globMd fs).isEmpty
  · rw [if_pos he, List.isEmpty_iff.mp he]
    exact ⟨rfl, rfl⟩
  · rw [if_neg he]
    dsimp only
    exact ⟨runFiles_counts env (globMd fs) fs, runFiles_processed env (globMd fs) fs⟩

/-- C1 witness: a directory with two markdown files, all stages succeeding. -/
theorem C1_batch_counts_witness :
    FS.dirExists fsTwo input_dir = true
    ∧ ((convert_all envAllOk fsTwo).success + (convert_all envAllOk fsTwo).fail
          = (globMd fsTwo).length
      ∧ (convert_all envAllOk fsTwo).processed = globMd fsTwo) :=
  ⟨by decide, C1_batch_counts envAllOk fsTwo (by decide)⟩

/-- C2: whatever the environment does (read, render, write or pagination may
fail in any way), the per-file temporary HTML file does not exist when
convert_file returns. -/
theorem C2_no_temp_after_convert_file (env : Env) (fs : FS) (p : FPath) :
    (convert_file env fs p).fs.fileExists (tempPathOf p) = false := by
  unfold convert_file
  rcases hcf : convert_file_try env fs p with ⟨out, fs1, lg⟩
  cases out
  · dsimp only
    exact fileExists_cleanup fs1 (tempPathOf p)
  · dsimp only
    exact fileExists_cleanup fs1 (tempPathOf p)

/-- C3: when convert_file returns True, the output file at the stem-derived
path in the output directory exists with non-zero size in the returned
filesystem; contrapositively, a missing or zero-length output after the
pagination call makes the file count as a failure. -/
theorem C3_success_pdf_nonempty (env : Env) (fs : FS) (p : FPath)
    (h : (convert_file env fs p).ok = true) :
    ∃ c, (convert_file env fs p).fs.lookupFile (pdfPathOf p) = some c
      ∧ ¬ c.length = 0 := by
  have hchar := convert_file_chars env fs p
  rw [hchar.2.1] at h
  unfold fileOk at h
  have hd := hchar.2.2.2
  cases ho : pipeOutcome env p
  · rw [ho] at h
    simp at h
  · rw [ho] at h
    simp at h
  · rw [ho] at h
    simp at h
  · rw [ho] at h
    simp at h
  · rw [ho] at h hd
    dsimp only at h hd
    cases hl : fs.lookupFile (pdfPathOf p)
    · rw [hl] at h
      simp at h
    · rw [hl] at h
      refine ⟨_, ?_, of_decide_eq_true h⟩
      rw [hd]
      exact hl
  · rw [ho] at h hd
    dsimp only at h hd
    exact ⟨_, hd, of_decide_eq_true h⟩

/-- C3 witness: a fully successful conversion producing "PDFDATA". -/
theorem C3_success_pdf_nonempty_witness :
    (convert_file envAllOk fsDoc docPath).ok = true
    ∧ ∃ c, (convert_file envAllOk fsDoc docPath).fs.lookupFile (pdfPathOf docPath)
          = some c ∧ ¬ c.length = 0 :=
  ⟨by decide, C3_success_pdf_nonempty envAllOk fsDoc docPath (by decide)⟩

/-- C4 counterexample: a pagination failure ("boom") on input doc.md is a
per-file failure (convert_file returns False), yet the only error-level log
line is "转换失败: boom", which does not contain the file name — so the claim
that every per-file error is logged with the file name is false on the code. -/
theorem C4_error_log_cex :
    (convert_file envPagRaise fsDoc docPath).ok = false
    ∧ errorMsgs (convert_file envPagRaise fsDoc docPath).log = ["转换失败: boom"]
    ∧ ((errorMsgs (convert_file envPagRaise fsDoc docPath).log).any
        (fun m => strContains m "doc")) = false :=
  ⟨by decide, by decide, by decide⟩

/-- C4 (amended): every per-file error is non-fatal: convert_file returns
False after logging an error line carrying the underlying error text
(the file name appears in the error line only for read/render failures),
and the loop still hands every subsequent file to convert_file, with
success and failure counts summing to the number of files. -/
theorem C4_error_nonfatal_amended :
    (∀ (env : Env) (fs : FS) (p : FPath), (convert_file env fs p).ok = false →
      ∃ e, LogEntry.error ("转换失败: " ++ e) ∈ (convert_file env fs p).log)
    ∧ (∀ (env : Env) (files : List FPath) (fs : FS),
        (runFiles env files fs).processed = files
        ∧ (runFiles env files fs).success + (runFiles env files fs).fail
            = files.length) := by
  constructor
  · intro env fs p h
    unfold convert_file at h ⊢
    rcases hcf : convert_file_try env fs p with ⟨out, fs1, lg⟩
    cases out
    · dsimp only
      exact ⟨_, List.mem_append_right _ (List.mem_singleton.mpr rfl)⟩
    · rw [hcf] at h
      simp at h
  · exact fun env files fs =>
      ⟨runFiles_processed env files fs, runFiles_counts env files fs⟩

/-- C4 witness: the pagination failure of the counterexample run is logged
with the underlying error text. -/
theorem C4_error_nonfatal_witness :
    ∃ e, LogEntry.error ("转换失败: " ++ e)
        ∈ (convert_file envPagRaise fsDoc docPath).log :=
  C4_error_nonfatal_amended.1 envPagRaise fsDoc docPath (by decide)

/-- C5: when the wkhtmltopdf executable is absent, __init__ prints the two
remediation lines (with the download link) and raises FileNotFoundError; at
top level convert_all is never entered (no batch result, so no file is read
or converted).  The check sits only in __init__: convert_file and convert_all
do not even take the flag. -/
theorem C5_missing_engine_fatal (env : Env) (fs : FS) :
    initConverter false fs
      = (initFs fs, some "wkhtmltopdf not found",
         ["错误: 未找到wkhtmltopdf，请先安装wkhtmltopdf！",
          "下载地址: https://wkhtmltopdf.org/downloads.html"])
    ∧ (mainRun false env fs).batch = none
    ∧ (mainRun false env fs).printed
        = ["错误: 未找到wkhtmltopdf，请先安装wkhtmltopdf！",
           "下载地址: https://wkhtmltopdf.org/downloads.html",
           "发生错误: wkhtmltopdf not found", "\n按回车键退出..."] :=
  ⟨rfl, rfl, rfl⟩

/-- C6 counterexample: a run of the program on a machine without wkhtmltopdf
completes (the top-level handler prints the error), convert_all never runs,
and the temporary directory — created by __init__ before the executable
check — still exists afterwards.  So "after every run the temporary
directory does not exist" is false as stated. -/
theorem C6_tempdir_cex :
    (mainRun false envAllOk fsTwo).fs.dirExists temp_dir = true
    ∧ (mainRun false envAllOk fsTwo).batch = none :=
  ⟨rfl, rfl⟩

/-- C6 (amended): after every run in which the converter is constructed
successfully (the engine executable is present), the temporary directory
does not exist when the run completes; when construction fails after
creating the directory, it is left behind. -/
theorem C6_tempdir_amended (env : Env) (fs : FS) :
    (mainRun true env fs).fs.dirExists temp_dir = false := by
  unfold mainRun initConverter
  dsimp only
  exact convert_all_dirExists_temp env _

/-- C7: with a missing input directory, convert_all prints the notification,
performs no conversion at all (no file handed to convert_file, nothing
logged, both counters zero) and returns normally (it is a total function
into BatchResult; the only code after the early return is the finally
clause). -/
theorem C7_missing_input_dir (env : Env) (fs : FS)
    (h : fs.dirExists input_dir = false) :
    (convert_all env fs).success = 0 ∧ (convert_all env fs).fail = 0
    ∧ (convert_all env fs).processed = [] ∧ (convert_all env fs).log = []
    ∧ (convert_all env fs).printed
        = ["错误: 输入目录 \x27" ++ input_dir ++ "\x27 不存在!"] := by
  unfold convert_all
  rw [h, if_pos rfl]
  exact ⟨rfl, rfl, rfl, rfl, rfl⟩

/-- C7 witness: a filesystem with no input directory. -/
theorem C7_missing_input_dir_witness :
    FS.dirExists fsNoInput input_dir = false
    ∧ ((convert_all envAllOk fsNoInput).success = 0
      ∧ (convert_all envAllOk fsNoInput).fail = 0
      ∧ (convert_all envAllOk fsNoInput).processed = []
      ∧ (convert_all envAllOk fsNoInput).log = []
      ∧ (convert_all envAllOk fsNoInput).printed
          = ["错误: 输入目录 \x27" ++ input_dir ++ "\x27 不存在!"]) :=
  ⟨by decide, C7_missing_input_dir envAllOk fsNoInput (by decide)⟩

/-- C8: convert_md_to_html wraps every successfully rendered body in the one
fixed template (the same constant text before and after the body for all
inputs), its result depends on the renderer only through the fixed extension
list, and that list is exactly the six extensions of the source. -/
theorem C8_fixed_template :
    (∀ (env : Env) (p : FPath) (content body : String),
        env.readFile p = Except.ok content →
        env.renderMd extensions content = Except.ok body →
        (convert_md_to_html env p).1
          = Except.ok (templatePre ++ body ++ templatePost))
    ∧ (∀ (env env2 : Env) (p : FPath),
        env.readFile p = env2.readFile p →
        (∀ s, env.renderMd extensions s = env2.renderMd extensions s) →
        convert_md_to_html env p = convert_md_to_html env2 p)
    ∧ extensions
        = ["markdown.extensions.tables", "markdown.extensions.fenced_code",
           "markdown.extensions.codehilite", "markdown.extensions.toc",
           "markdown.extensions.meta", "markdown.extensions.nl2br"] := by
  refine ⟨?_, ?_, rfl⟩
  · intro env p content body h1 h2
    unfold convert_md_to_html
    rw [h1]
    dsimp only
    rw [h2]
    rfl
  · intro env env2 p h1 h2
    unfold convert_md_to_html
    rw [h1]
    cases hr : env2.readFile p
    · rfl
    · dsimp only
      rw [h2]

/-- C8 witness: a concrete successful render, wrapped in the template. -/
theorem C8_fixed_template_witness :
    (convert_md_to_html envAllOk docPath).1
      = Except.ok (templatePre ++ "<h1>hello</h1>" ++ templatePost) :=
  C8_fixed_template.1 envAllOk docPath "# hello" "<h1>hello</h1>" rfl rfl

set_option maxRecDepth 100000 in
/-- C9 counterexample: the inputs ".md" and ".md.md" both match the '*.md'
glob and both have stem ".md", so both conversions target the output path
".md.pdf".  Under the fixed world envStemClash, run 1 counts ".md" a failure
(its pagination creates no output) and ".md.md" a success, giving
success 1 / fail 1; run 2 finds the non-empty ".md.pdf" left behind by run 1
and counts ".md" a success too, giving success 2 / fail 0.  So running the
batch twice over the same input files does not always yield the same
counts. -/
theorem C9_two_runs_cex :
    (convert_all envStemClash (initFs fsClash)).success = 1
    ∧ (convert_all envStemClash (initFs fsClash)).fail = 1
    ∧ (convert_all envStemClash
        (initFs (convert_all envStemClash (initFs fsClash)).fs)).success = 2
    ∧ (convert_all envStemClash
        (initFs (convert_all envStemClash (initFs fsClash)).fs)).fail = 0 :=
  ⟨rfl, rfl, rfl, rfl⟩

/-- C9 (amended): under a fixed external world, running the program twice
(each run: __init__ directory setup then convert_all) over the same input
files yields the same success and failure counts, provided the inputs'
stems are pairwise distinct — which distinct '*.md' names give except for
the degenerate ".md"/".md.md" clash of the counterexample; outputs go to
the same stem-derived path in both runs and overwrite rather than duplicate
(path keys stay pairwise distinct). -/
theorem C9_two_runs (env : Env) (fs0 : FS)
    (hstem : ((globMd fs0).map (fun p => stemOf p.name)).Nodup)
    (hkeys : FS.keysNodup fs0) :
    (convert_all env (initFs fs0)).success
        = (convert_all env (initFs (convert_all env (initFs fs0)).fs)).success
    ∧ (convert_all env (initFs fs0)).fail
        = (convert_all env (initFs (convert_all env (initFs fs0)).fs)).fail
    ∧ FS.keysNodup (convert_all env (initFs (convert_all env (initFs fs0)).fs)).fs
    ∧ (∀ p : FPath, pdfPathOf p = FPath.mk output_dir (stemOf p.name ++ ".pdf")) := by
  have hkeys2 :
      FS.keysNodup (convert_all env (initFs (convert_all env (initFs fs0)).fs)).fs :=
    convert_all_keysNodup env _
      (keysNodup_initFs _ (convert_all_keysNodup env _ (keysNodup_initFs _ hkeys)))
  have hgA : globMd (initFs fs0) = globMd fs0 := globMd_initFs fs0
  have hgB : globMd (initFs (convert_all env (initFs fs0)).fs) = globMd fs0 := by
    rw [globMd_initFs, convert_all_globMd, globMd_initFs]
  have hdA : (initFs fs0).dirExists input_dir = fs0.dirExists input_dir :=
    dirExists_input_initFs fs0
  have hdB : (initFs (convert_all env (initFs fs0)).fs).dirExists input_dir
      = fs0.dirExists input_dir := by
    rw [dirExists_input_initFs, convert_all_dirExists_input, dirExists_input_initFs]
  have hsf : (convert_all env (initFs fs0)).success
        = (convert_all env (initFs (convert_all env (initFs fs0)).fs)).success
      ∧ (convert_all env (initFs fs0)).fail
        = (convert_all env (initFs (convert_all env (initFs fs0)).fs)).fail := by
    cases hin : fs0.dirExists input_dir
    · have z1 := convert_all_counts_zero env (initFs fs0) (by rw [hdA, hin])
      have z2 := convert_all_counts_zero env (initFs (convert_all env (initFs fs0)).fs)
        (by rw [hdB, hin])
      exact ⟨by rw [z1.1, z2.1], by rw [z1.2, z2.2]⟩
    · have hm1 := convert_all_counts_main env (initFs fs0) (by rw [hdA, hin])
      have hm2 := convert_all_counts_main env (initFs (convert_all env (initFs fs0)).fs)
        (by rw [hdB, hin])
      rw [hgA] at hm1
      rw [hgB] at hm2
      have H : ∀ q, q ∈ globMd fs0 → pipeOutcome env q = PipeOutcome.pagNone →
          (initFs fs0).lookupFile (pdfPathOf q)
            = (initFs (convert_all env (initFs fs0)).fs).lookupFile (pdfPathOf q) := by
        intro q hq ho
        rw [lookup_initFs fs0 (pdfPathOf q),
            lookup_initFs ((convert_all env (initFs fs0)).fs) (pdfPathOf q)]
        rw [convert_all_lookup_pdf env (initFs fs0) q ?_]
        · rw [lookup_initFs]
        · intro p2 hp2 hst c hh
          rw [hgA] at hp2
          have hp2q : p2 = q := List.inj_on_of_nodup_map hstem hp2 hq hst
          rw [hp2q, ho] at hh
          exact PipeOutcome.noConfusion hh
      have hcnt := runFiles_counts_eq env (globMd fs0) (initFs fs0)
        (initFs (convert_all env (initFs fs0)).fs) hstem H
      exact ⟨by rw [hm1.1, hm2.1]; exact hcnt.1, by rw [hm1.2, hm2.2]; exact hcnt.2⟩
  exact ⟨hsf.1, hsf.2, hkeys2, fun p => rfl⟩

/-- C9 witness: two files a.md and b.md with distinct stems, run twice. -/
theorem C9_two_runs_witness :
    (((globMd fsTwo).map (fun p => stemOf p.name)).Nodup ∧ FS.keysNodup fsTwo)
    ∧ ((convert_all envAllOk (initFs fsTwo)).success
          = (convert_all envAllOk
              (initFs (convert_all envAllOk (initFs fsTwo)).fs)).success
      ∧ (convert_all envAllOk (initFs fsTwo)).fail
          = (convert_all envAllOk
              (initFs (convert_all envAllOk (initFs fsTwo)).fs)).fail
      ∧ FS.keysNodup (convert_all envAllOk
          (initFs (convert_all envAllOk (initFs fsTwo)).fs)).fs
      ∧ (∀ p : FPath, pdfPathOf p = FPath.mk output_dir (stemOf p.name ++ ".pdf"))) :=
  ⟨⟨by decide, by unfold FS.keysNodup; decide⟩,
   C9_two_runs envAllOk fsTwo (by decide) (by unfold FS.keysNodup; decide)⟩

/-- C10: convert_file is total at the batch interface: it always returns a
boolean, equal to whether the try block reached `return True` — every
exception of the try block (read, render, temp write, pagination,
verification) is mapped to False by the handler — and hence the loop hands
every file of the list to convert_file (no file aborts the batch). -/
theorem C10_convert_file_total (env : Env) (fs : FS) (p : FPath)
    (files : List FPath) :
    (convert_file env fs p).ok = isOkE (convert_file_try env fs p).1
    ∧ (runFiles env files fs).processed = files := by
  constructor
  · unfold convert_file
    rcases hcf : convert_file_try env fs p with ⟨out, fs1, lg⟩
    cases out
    · rfl
    · rfl
  · exact runFiles_processed env files fs

end MdToPdf
